import Mathlib

/-!
Shallow embedding of the trainwell-funnel conversion-funnel core:
the MongoDB event repository (`getUsersForStep`,
`getUsersCompletingSequentialSteps`) and the event service orchestrator
(`analyzeFunnel`).

Modelling conventions:
* the MongoDB `events` collection is a `List EventDocument`; an
  aggregation `$match` / `$group _id: user_id` pipeline is a filter
  followed by a `map user_id` and `dedup`;
* `Date` timestamps are `Int`; JavaScript `new Date(...)` parsing is an
  external runtime facility, passed to `analyzeFunnel` as a parameter
  `parseDate : String → Option Int` (`none` models `isNaN(getTime())`);
* JavaScript numbers are modelled as `ℚ` (the derived rates are exact
  rationals of the counts);
* thrown errors are `Except String`;
* `matchType` is typed `'path' | 'hostname'` in the shared TypeScript
  types, but the repository performs an untyped `=== 'path'` check with
  an unconditional `else`, so it is embedded as `String`.
-/

/-- The `content` subdocument of an event: the matched page fields. -/
structure Content where
  path : String
  hostname : String
deriving DecidableEq, Repr, Inhabited

/-- One page-view event document of the read-only `events` collection. -/
structure EventDocument where
  user_id : String
  date : Int
  platform : String
  type : String
  content : Content
deriving DecidableEq, Repr, Inhabited

/-- One funnel step configuration (shared/src/types/funnel.types.ts). -/
structure FunnelStepConfig where
  name : String
  matchType : String
  matchValue : String
deriving DecidableEq, Repr, Inhabited

/-- A funnel analysis request (shared/src/types/funnel.types.ts). -/
structure FunnelAnalysisRequest where
  steps : List FunnelStepConfig
  startDate : String
  endDate : String
deriving DecidableEq, Repr, Inhabited

/-- Per-step result record (shared/src/types/funnel.types.ts). -/
structure FunnelStepResult where
  step : String
  stepIndex : Nat
  users : Nat
  conversionRate : ℚ
  dropoffRate : ℚ
  stepConversionRate : ℚ
deriving DecidableEq, Repr, Inhabited

/-- The summary block of an analysis result (event.service.ts). -/
structure FunnelSummary where
  totalUsers : Nat
  completedUsers : Nat
  overallConversionRate : ℚ
  avgStepConversionRate : ℚ
deriving DecidableEq, Repr, Inhabited

/-- The full return value of `analyzeFunnel` (event.service.ts). -/
structure FunnelAnalysisResult where
  steps : List FunnelStepResult
  summary : FunnelSummary
deriving DecidableEq, Repr, Inhabited

/-- The `$match` predicate built by `EventRepository.getUsersForStep`:
`platform: 'web'`, `type: 'page_view'`, `user_id: $in previousStepUsers`
(added only when the candidate array is present AND non-empty), the
inclusive date range, and the exact path/hostname equality chosen by
`matchType === 'path'`. -/
def eventMatchesStep (step : FunnelStepConfig) (startDate endDate : Int)
    (previousStepUsers : Option (List String)) (e : EventDocument) : Bool :=
  e.platform == "web" && e.type == "page_view"
    && (match previousStepUsers with
        | some prev => if prev.length > 0 then prev.contains e.user_id else true
        | none => true)
    && (decide (startDate ≤ e.date) && decide (e.date ≤ endDate))
    && (if step.matchType == "path" then e.content.path == step.matchValue
        else e.content.hostname == step.matchValue)

/-- `EventRepository.getUsersForStep`: aggregate the matching events and
group by `user_id`, returning the distinct user ids. -/
def getUsersForStep (store : List EventDocument) (step : FunnelStepConfig)
    (startDate endDate : Int) (previousStepUsers : Option (List String)) : List String :=
  ((store.filter (eventMatchesStep step startDate endDate previousStepUsers)).map
    EventDocument.user_id).dedup

/-- The progressive-filter loop of
`EventRepository.getUsersCompletingSequentialSteps`: thread the running
user set through `getUsersForStep` for each remaining step. -/
def chainSteps (store : List EventDocument) (steps : List FunnelStepConfig)
    (startDate endDate : Int) (users : List String) : List String :=
  steps.foldl (fun acc step => getUsersForStep store step startDate endDate (some acc)) users

/-- Error message of the repository's step-index guard. -/
def errInvalidStepIndex (stepIndex : Nat) : String :=
  "Invalid step index: " ++ toString stepIndex

/-- Error message of the repository's dead empty-steps guard. -/
def errNoSteps : String := "No steps provided"

/-- `EventRepository.getUsersCompletingSequentialSteps`: validate the
index, resolve step 0 unrestricted, then progressively filter through
steps `1..stepIndex` (re-deriving the whole chain from step 0). -/
def getUsersCompletingSequentialSteps (store : List EventDocument)
    (steps : List FunnelStepConfig) (stepIndex : Nat)
    (startDate endDate : Int) : Except String (List String) :=
  if stepIndex ≥ steps.length then Except.error (errInvalidStepIndex stepIndex)
  else
    match steps with
    | [] => Except.error errNoSteps
    | firstStep :: rest =>
      if stepIndex = 0 then
        Except.ok (getUsersForStep store firstStep startDate endDate none)
      else
        Except.ok (chainSteps store (rest.take stepIndex) startDate endDate
          (getUsersForStep store firstStep startDate endDate none))

/-- Validation error message for an empty step list (event.service.ts). -/
def errNoFunnelSteps : String := "At least one funnel step is required"

/-- Validation error message for unparseable dates (event.service.ts). -/
def errInvalidDate : String := "Invalid date format"

/-- Fallback step name `steps[i]?.name ?? 'Unknown'` (event.service.ts). -/
def unknownStepName : String := "Unknown"

/-- One iteration of the `analyzeFunnel` loop, as a function of the
per-step distinct-user counts: `userCount = counts[i]`,
`totalUsers = i == 0 ? userCount : stepResults[0]?.users ?? 0`,
`previousUsers = counts[i-1]` (0 before the first iteration), and the
derived rates exactly as computed in event.service.ts lines 126-141. -/
def mkStepResult (steps : List FunnelStepConfig) (counts : List Nat)
    (i : Nat) : FunnelStepResult :=
  let userCount := counts.getD i 0
  let totalUsers := if i = 0 then userCount else counts.getD 0 0
  let previousUsers := if i = 0 then 0 else counts.getD (i - 1) 0
  let conversionRate : ℚ :=
    if totalUsers > 0 then (userCount : ℚ) / (totalUsers : ℚ) * 100 else 0
  let stepConversionRate : ℚ :=
    if i = 0 ∨ previousUsers = 0 then 100
    else (userCount : ℚ) / (previousUsers : ℚ) * 100
  let dropoffRate : ℚ := 100 - stepConversionRate
  { step := ((steps.get? i).map FunnelStepConfig.name).getD unknownStepName
    stepIndex := i
    users := userCount
    conversionRate := conversionRate
    dropoffRate := if i = 0 then 0 else dropoffRate
    stepConversionRate := stepConversionRate }

/-- The summary block computed after the loop (event.service.ts lines
147-159): first/last user counts, overall rate, and the mean of the
step conversion rates excluding the first step (100 when none). -/
def mkSummary (stepResults : List FunnelStepResult) : FunnelSummary :=
  let totalUsers := ((stepResults.get? 0).map FunnelStepResult.users).getD 0
  let completedUsers :=
    ((stepResults.get? (stepResults.length - 1)).map FunnelStepResult.users).getD 0
  let overallConversionRate : ℚ :=
    if totalUsers > 0 then (completedUsers : ℚ) / (totalUsers : ℚ) * 100 else 0
  let stepConversionRates := (stepResults.drop 1).map FunnelStepResult.stepConversionRate
  let avgStepConversionRate : ℚ :=
    if stepConversionRates.length > 0 then
      stepConversionRates.sum / (stepConversionRates.length : ℚ)
    else 100
  { totalUsers := totalUsers
    completedUsers := completedUsers
    overallConversionRate := overallConversionRate
    avgStepConversionRate := avgStepConversionRate }

/-- The per-step distinct-user counts gathered by the `analyzeFunnel`
loop: one `getUsersCompletingSequentialSteps` call per index, in order,
with any repository error aborting the whole analysis. -/
def getStepCounts (store : List EventDocument) (steps : List FunnelStepConfig)
    (startDate endDate : Int) : Except String (List Nat) :=
  (List.range steps.length).mapM (fun i =>
    Except.map List.length (getUsersCompletingSequentialSteps store steps i startDate endDate))

/-- Assemble the step results and the summary from the counts. -/
def buildResult (steps : List FunnelStepConfig) (counts : List Nat) : FunnelAnalysisResult :=
  let stepResults := (List.range steps.length).map (mkStepResult steps counts)
  { steps := stepResults, summary := mkSummary stepResults }

/-- `EventService.analyzeFunnel`: reject an empty step list, parse both
dates (rejecting if either fails), then run the sequential per-step
queries and derive the metrics. `parseDate` stands for the JavaScript
`new Date(...)` runtime parser. -/
def analyzeFunnel (parseDate : String → Option Int) (store : List EventDocument)
    (request : FunnelAnalysisRequest) : Except String FunnelAnalysisResult :=
  if request.steps.length = 0 then Except.error errNoFunnelSteps
  else
    match parseDate request.startDate, parseDate request.endDate with
    | some startDateTime, some endDateTime =>
      Except.map (buildResult request.steps)
        (getStepCounts store request.steps startDateTime endDateTime)
    | _, _ => Except.error errInvalidDate

/-- Test date parser fixture: maps the two ISO strings used in the
repository's tests to concrete instants, everything else to `none`. -/
def dateParse (s : String) : Option Int :=
  if s = "2025-01-01" then some 0
  else if s = "2025-01-31" then some 100
  else none

def bugStore : List EventDocument :=
  [{ user_id := "u1", date := 5, platform := "web", type := "page_view",
     content := { path := "/b", hostname := "example.com" } }]

def bugSteps : List FunnelStepConfig :=
  [{ name := "A", matchType := "path", matchValue := "/a" },
   { name := "B", matchType := "path", matchValue := "/b" }]

def bugRequest : FunnelAnalysisRequest :=
  { steps := bugSteps, startDate := "2025-01-01", endDate := "2025-01-31" }

/-- C1. The monotonicity claim fails on the code: with a store holding a
single event on path `/b` and the two-step funnel `/a` then `/b`, the
analysis returns user counts `[0, 1]`, so `users(1) > users(0)` — the
candidate chain is not monotonically non-increasing. (Step 0 resolves to
the empty set; the empty candidate array is then passed to the resolver,
which skips the `user_id $in` restriction because the array is empty, so
step 1 is resolved unrestricted.) -/
theorem analyzeFunnel_monotonicity_violated :
    Except.map (fun r => r.steps.map FunnelStepResult.users)
      (analyzeFunnel dateParse bugStore bugRequest) = Except.ok [0, 1] ∧
    ¬ ((1 : Nat) ≤ 0) := by
  constructor
  · rfl
  · decide

/-- C2. The zero-user degeneracy claim fails on the code: on the same
store and request, `users(0) = 0` yet `users(1) = 1 ≠ 0`. (The
conversion-rate half of the claim does hold — both conversion rates are
0 here — but the user counts do not collapse to 0.) -/
theorem analyzeFunnel_zero_degeneracy_violated :
    Except.map (fun r =>
        ((r.steps.map FunnelStepResult.users).getD 0 0,
         (r.steps.map FunnelStepResult.users).getD 1 0,
         r.steps.map FunnelStepResult.conversionRate))
      (analyzeFunnel dateParse bugStore bugRequest) = Except.ok (0, 1, [0, 0]) ∧
    (1 : Nat) ≠ 0 := by
  constructor
  · rfl
  · decide

/-- C3. Empty-candidate fallthrough: the resolver applies the
`user_id $in` restriction only when the supplied candidate array is
non-empty, so calling it with an empty `previousStepUsers` array returns
exactly the same user set as calling it with no candidate argument. -/
theorem getUsersForStep_empty_candidates (store : List EventDocument)
    (step : FunnelStepConfig) (startDate endDate : Int) :
    getUsersForStep store step startDate endDate (some []) =
      getUsersForStep store step startDate endDate none := by
  have h : store.filter (eventMatchesStep step startDate endDate (some [])) =
      store.filter (eventMatchesStep step startDate endDate none) :=
    List.filter_congr (fun e _ => rfl)
  rw [getUsersForStep, getUsersForStep, h]

/-- Pointwise: when `matchType` is not `"path"`, the match predicate is
the one of the same step with `matchType` set to `"hostname"`. -/
theorem eventMatchesStep_nonpath (step : FunnelStepConfig) (startDate endDate : Int)
    (prev : Option (List String)) (e : EventDocument) (h : step.matchType ≠ "path") :
    eventMatchesStep step startDate endDate prev e =
      eventMatchesStep { step with matchType := "hostname" } startDate endDate prev e := by
  have hb : (step.matchType == "path") = false := by
    simp [h]
  simp [eventMatchesStep, hb]

/-- C10. Non-`"path"` `matchType` falls through to hostname matching:
for any step whose `matchType` differs from `"path"` (including values
outside the typed union), the resolver behaves exactly as if
`matchType` were `"hostname"`, and its output never depends on any
event's `content.path` (rewriting every path in the store arbitrarily
leaves the result unchanged). -/
theorem getUsersForStep_nonpath_defaults_to_hostname (store : List EventDocument)
    (step : FunnelStepConfig) (startDate endDate : Int)
    (prev : Option (List String)) (h : step.matchType ≠ "path") :
    getUsersForStep store step startDate endDate prev =
      getUsersForStep store { step with matchType := "hostname" } startDate endDate prev ∧
    ∀ f : String → String,
      getUsersForStep
        (store.map (fun e => { e with content := { e.content with path := f e.content.path } }))
        step startDate endDate prev =
      getUsersForStep store step startDate endDate prev := by
  have hb : (step.matchType == "path") = false := by
    simp [h]
  constructor
  · have hf : store.filter (eventMatchesStep step startDate endDate prev) =
        store.filter
          (eventMatchesStep { step with matchType := "hostname" } startDate endDate prev) :=
      List.filter_congr (fun e _ => eventMatchesStep_nonpath step startDate endDate prev e h)
    rw [getUsersForStep, getUsersForStep, hf]
  · intro f
    rw [getUsersForStep, getUsersForStep, List.filter_map, List.map_map]
    have hp : (eventMatchesStep step startDate endDate prev ∘
        fun e => { e with content := { e.content with path := f e.content.path } }) =
        eventMatchesStep step startDate endDate prev := by
      funext e
      simp [Function.comp, eventMatchesStep, hb]
    have hu : (EventDocument.user_id ∘
        fun e => { e with content := { e.content with path := f e.content.path } }) =
        EventDocument.user_id := by
      funext e
      rfl
    rw [hp, hu]

/-- C10 witness: a concrete step with `matchType = "banana"` resolves
exactly as the hostname version of the same step. -/
theorem getUsersForStep_nonpath_defaults_to_hostname_witness :
    getUsersForStep bugStore { name := "S", matchType := "banana", matchValue := "example.com" }
        0 10 none =
      getUsersForStep bugStore { name := "S", matchType := "hostname", matchValue := "example.com" }
        0 10 none :=
  (getUsersForStep_nonpath_defaults_to_hostname bugStore
    { name := "S", matchType := "banana", matchValue := "example.com" } 0 10 none
    (by decide)).1

/-- Decode of the match predicate into propositional form. -/
theorem eventMatchesStep_iff (step : FunnelStepConfig) (startDate endDate : Int)
    (prev : Option (List String)) (e : EventDocument) :
    eventMatchesStep step startDate endDate prev e = true ↔
      (e.platform = "web" ∧ e.type = "page_view" ∧
       (∀ l, prev = some l → l ≠ [] → e.user_id ∈ l) ∧
       startDate ≤ e.date ∧ e.date ≤ endDate ∧
       (if step.matchType = "path" then e.content.path = step.matchValue
        else e.content.hostname = step.matchValue)) := by
  cases prev with
  | none =>
    by_cases hm : step.matchType = "path" <;>
      simp [eventMatchesStep, hm, and_assoc]
  | some l =>
    by_cases hl : l = []
    · subst hl
      by_cases hm : step.matchType = "path" <;>
        simp [eventMatchesStep, hm, and_assoc]
    · have hlen : 0 < l.length := List.length_pos.mpr hl
      by_cases hm : step.matchType = "path" <;>
        simp [eventMatchesStep, hm, hlen, hl, and_assoc]

/-- Membership in the resolver output is witnessed by a matching event. -/
theorem mem_getUsersForStep (store : List EventDocument) (step : FunnelStepConfig)
    (startDate endDate : Int) (prev : Option (List String)) (u : String) :
    u ∈ getUsersForStep store step startDate endDate prev ↔
      ∃ e, e ∈ store ∧ eventMatchesStep step startDate endDate prev e = true ∧
        e.user_id = u := by
  simp [getUsersForStep, List.mem_filter, and_assoc]

/-- C4 counterexample: the claim requires the output to be restricted to
the candidate set whenever one is provided, but with the provided
candidate set `[]` the resolver returns `["u1"]`, and `"u1"` is not a
member of `[]`. -/
theorem getUsersForStep_candidate_restriction_cex :
    getUsersForStep bugStore { name := "B", matchType := "path", matchValue := "/b" }
        0 10 (some []) = ["u1"] ∧
    "u1" ∉ ([] : List String) := by
  constructor
  · rfl
  · decide

/-- C4 (amended). Resolver output characterization: for a step whose
`matchType` is `"path"` or `"hostname"`, the resolver returns a
duplicate-free list containing exactly the user ids having at least one
event in the store with `platform = "web"`, `type = "page_view"`, date
in the inclusive window, exact path (resp. hostname) equality — and,
when a NON-EMPTY candidate set is provided, membership in it. -/
theorem getUsersForStep_characterization (store : List EventDocument)
    (step : FunnelStepConfig) (startDate endDate : Int)
    (prev : Option (List String))
    (hmt : step.matchType = "path" ∨ step.matchType = "hostname") :
    (getUsersForStep store step startDate endDate prev).Nodup ∧
    ∀ u, u ∈ getUsersForStep store step startDate endDate prev ↔
      ((∀ l, prev = some l → l ≠ [] → u ∈ l) ∧
       ∃ e, e ∈ store ∧ e.user_id = u ∧ e.platform = "web" ∧ e.type = "page_view" ∧
         startDate ≤ e.date ∧ e.date ≤ endDate ∧
         ((step.matchType = "path" ∧ e.content.path = step.matchValue) ∨
          (step.matchType = "hostname" ∧ e.content.hostname = step.matchValue))) := by
  constructor
  · exact List.nodup_dedup _
  · intro u
    rw [mem_getUsersForStep]
    constructor
    · rintro ⟨e, he, hm, hu⟩
      rw [eventMatchesStep_iff] at hm
      obtain ⟨hp, ht, hc, hd1, hd2, hmatch⟩ := hm
      refine ⟨by simpa [hu] using hc, e, he, hu, hp, ht, hd1, hd2, ?_⟩
      rcases hmt with hmt | hmt
      · exact Or.inl ⟨hmt, by simpa [hmt] using hmatch⟩
      · refine Or.inr ⟨hmt, ?_⟩
        have hne : ¬ step.matchType = "path" := by
          rw [hmt]; decide
        simpa [if_neg hne] using hmatch
    · rintro ⟨hc, e, he, hu, hp, ht, hd1, hd2, hmatch⟩
      refine ⟨e, he, ?_, hu⟩
      rw [eventMatchesStep_iff]
      refine ⟨hp, ht, by simpa [hu] using hc, hd1, hd2, ?_⟩
      rcases hmatch with ⟨hmt', hv⟩ | ⟨hmt', hv⟩
      · simpa [hmt'] using hv
      · have hne : ¬ step.matchType = "path" := by
          rw [hmt']; decide
        simpa [if_neg hne] using hv

/-- C4 witness: the characterization applied at a concrete path step. -/
theorem getUsersForStep_characterization_witness :
    (getUsersForStep bugStore { name := "B", matchType := "path", matchValue := "/b" }
      0 10 none).Nodup :=
  (getUsersForStep_characterization bugStore
    { name := "B", matchType := "path", matchValue := "/b" } 0 10 none (Or.inl rfl)).1

/-- Spec-side definition for the refinement claim, following the spec's
data-flow description (§2): `candidates(0)` is resolved with no
candidate restriction, and `candidates(i)` for `i > 0` is resolved with
`candidates(i-1)` passed as the candidate set — an incremental left
fold, in contrast to the repository's re-derivation of the whole chain
from step 0 at every index. -/
def specFoldCandidates (store : List EventDocument) (steps : List FunnelStepConfig)
    (startDate endDate : Int) : Nat → List String
  | 0 => getUsersForStep store (steps.getD 0 default) startDate endDate none
  | i + 1 => getUsersForStep store (steps.getD (i + 1) default) startDate endDate
      (some (specFoldCandidates store steps startDate endDate i))

/-- The progressive-filter loop, run over the first `i` follow-up steps,
computes exactly the spec's incremental fold at index `i`. -/
theorem chainSteps_take_eq_specFold (store : List EventDocument)
    (f : FunnelStepConfig) (rest : List FunnelStepConfig) (startDate endDate : Int) :
    ∀ i, i ≤ rest.length →
      chainSteps store (rest.take i) startDate endDate
          (getUsersForStep store f startDate endDate none) =
        specFoldCandidates store (f :: rest) startDate endDate i := by
  intro i
  induction i with
  | zero =>
    intro _
    simp [chainSteps, specFoldCandidates]
  | succ i ih =>
    intro h
    have hi : i < rest.length := Nat.lt_of_succ_le h
    have hget : rest[i]? = some (rest.get ⟨i, hi⟩) := by
      rw [List.getElem?_eq_getElem hi, List.get_eq_getElem]
    rw [List.take_succ, hget]
    rw [chainSteps, List.foldl_append]
    simp only [List.foldl_cons, List.foldl_nil, Option.toList_some]
    rw [← chainSteps, ih (Nat.le_of_lt hi)]
    rw [specFoldCandidates]
    have hgD : (f :: rest).getD (i + 1) default = rest.get ⟨i, hi⟩ := by
      simp [List.getD, hget]
    rw [hgD]

/-- C6. Orchestration refinement: for every store, step list, window and
valid index, the repository's chain re-derivation
`getUsersCompletingSequentialSteps` returns exactly the user set of the
spec's incremental left fold at that index. -/
theorem getUsersCompletingSequentialSteps_eq_specFold (store : List EventDocument)
    (steps : List FunnelStepConfig) (startDate endDate : Int) (i : Nat)
    (hi : i < steps.length) :
    getUsersCompletingSequentialSteps store steps i startDate endDate =
      Except.ok (specFoldCandidates store steps startDate endDate i) := by
  cases steps with
  | nil => simp at hi
  | cons f rest =>
    rw [getUsersCompletingSequentialSteps]
    rw [if_neg (not_le.mpr hi)]
    cases i with
    | zero =>
      rw [if_pos rfl]
      simp [specFoldCandidates]
    | succ i =>
      rw [if_neg (Nat.succ_ne_zero i)]
      have hle : i + 1 ≤ rest.length := by
        simpa [Nat.succ_le_iff] using hi
      rw [chainSteps_take_eq_specFold store f rest startDate endDate (i + 1) hle]

/-- C6 witness: the refinement applied at index 1 of the two-step demo
funnel. -/
theorem getUsersCompletingSequentialSteps_eq_specFold_witness :
    getUsersCompletingSequentialSteps bugStore bugSteps 1 0 100 =
      Except.ok (specFoldCandidates bugStore bugSteps 0 100 1) :=
  getUsersCompletingSequentialSteps_eq_specFold bugStore bugSteps 0 100 1 (by decide)

/-- Inversion: a successful analysis is `buildResult` of some counts,
and the step list was non-empty. -/
theorem analyzeFunnel_ok_inv (parse : String → Option Int) (store : List EventDocument)
    (req : FunnelAnalysisRequest) (r : FunnelAnalysisResult)
    (h : analyzeFunnel parse store req = Except.ok r) :
    ∃ counts, r = buildResult req.steps counts ∧ req.steps.length ≠ 0 := by
  rw [analyzeFunnel] at h
  by_cases h0 : req.steps.length = 0
  · rw [if_pos h0] at h
    exact absurd h (by simp)
  · rw [if_neg h0] at h
    rcases hs : parse req.startDate with _ | sd <;> rw [hs] at h
    · simp at h
    · rcases he : parse req.endDate with _ | ed <;> rw [he] at h
      · simp at h
      · rcases hc : getStepCounts store req.steps sd ed with err | counts
        · simp [hc, Except.map] at h
        · simp only [hc, Except.map, Except.ok.injEq] at h
          exact ⟨counts, h.symm, h0⟩

/-- The step list of a built result has one entry per configured step. -/
theorem buildResult_steps_length (steps : List FunnelStepConfig) (counts : List Nat) :
    (buildResult steps counts).steps.length = steps.length := by
  simp [buildResult]

/-- Indexing into a built result yields the corresponding loop record. -/
theorem buildResult_steps_getD (steps : List FunnelStepConfig) (counts : List Nat)
    (i : Nat) (hi : i < steps.length) :
    (buildResult steps counts).steps.getD i default = mkStepResult steps counts i := by
  simp [buildResult, hi]

/-- C5. Per-step derived rates: in every successful analysis,
`stepConversionRate(i)` is 100 when `i = 0` or when the previous step's
user count is 0 (the forced-100 policy), and otherwise equals
`users(i) / users(i-1) * 100`; `dropoffRate(i)` is 0 at `i = 0` and
`100 - stepConversionRate(i)` otherwise. -/
theorem analyzeFunnel_step_rates (parse : String → Option Int) (store : List EventDocument)
    (req : FunnelAnalysisRequest) (r : FunnelAnalysisResult)
    (h : analyzeFunnel parse store req = Except.ok r) (i : Nat)
    (hi : i < r.steps.length) :
    (r.steps.getD i default).stepConversionRate =
      (if i = 0 ∨ (r.steps.getD (i - 1) default).users = 0 then (100 : ℚ)
       else ((r.steps.getD i default).users : ℚ) /
         ((r.steps.getD (i - 1) default).users : ℚ) * 100) ∧
    (r.steps.getD i default).dropoffRate =
      (if i = 0 then (0 : ℚ)
       else 100 - (r.steps.getD i default).stepConversionRate) := by
  obtain ⟨counts, rfl, h0⟩ := analyzeFunnel_ok_inv parse store req r h
  rw [buildResult_steps_length] at hi
  rw [buildResult_steps_getD req.steps counts i hi]
  rw [buildResult_steps_getD req.steps counts (i - 1) (lt_of_le_of_lt (Nat.sub_le i 1) hi)]
  rcases i with _ | j
  · simp [mkStepResult]
  · have hj : ¬ (j + 1 = 0) := Nat.succ_ne_zero j
    by_cases hp : counts.getD j 0 = 0 <;>
      simp [mkStepResult, hj, hp]

/-- The concrete analysis result on `bugStore`/`bugRequest`: the counts
are `[0, 1]` (the C1/C2 failing run, where `completedUsers >
totalUsers`), and the step records and summary are derived from them. -/
def funnelResultBug : FunnelAnalysisResult := buildResult bugSteps [0, 1]

/-- C5 witness: the rate equations applied at step 1 of a concrete run
(exercising the forced-100 policy, since step 0 has zero users). -/
theorem analyzeFunnel_step_rates_witness :
    analyzeFunnel dateParse bugStore bugRequest = Except.ok funnelResultBug ∧
    1 < funnelResultBug.steps.length ∧
    ((funnelResultBug.steps.getD 1 default).stepConversionRate =
      (if 1 = 0 ∨ (funnelResultBug.steps.getD (1 - 1) default).users = 0 then (100 : ℚ)
       else ((funnelResultBug.steps.getD 1 default).users : ℚ) /
         ((funnelResultBug.steps.getD (1 - 1) default).users : ℚ) * 100) ∧
     (funnelResultBug.steps.getD 1 default).dropoffRate =
      (if 1 = 0 then (0 : ℚ)
       else 100 - (funnelResultBug.steps.getD 1 default).stepConversionRate)) :=
  ⟨by rfl, by decide,
   analyzeFunnel_step_rates dateParse bugStore bugRequest funnelResultBug (by rfl) 1
     (by decide)⟩

/-- The summary equations, proved for `mkSummary` of any non-empty step
result list. -/
theorem mkSummary_spec (l : List FunnelStepResult) (hl : l ≠ []) :
    (mkSummary l).totalUsers = (l.getD 0 default).users ∧
    (mkSummary l).completedUsers = (l.getD (l.length - 1) default).users ∧
    (mkSummary l).overallConversionRate =
      (if (mkSummary l).totalUsers > 0 then
        ((mkSummary l).completedUsers : ℚ) / ((mkSummary l).totalUsers : ℚ) * 100 else 0) ∧
    (mkSummary l).avgStepConversionRate =
      (if l.length = 1 then (100 : ℚ)
       else ((l.drop 1).map FunnelStepResult.stepConversionRate).sum /
         (((l.drop 1).length : ℚ))) := by
  cases l with
  | nil => exact absurd rfl hl
  | cons a as =>
    refine ⟨?_, ?_, ?_, ?_⟩
    · simp [mkSummary]
    · have hlt : as.length < (a :: as).length := by simp
      obtain ⟨x, hx⟩ : ∃ x, (a :: as)[as.length]? = some x :=
        ⟨_, List.getElem?_eq_getElem hlt⟩
      simp [mkSummary, List.get?_eq_getElem?, hx]
    · rfl
    · by_cases h1 : as = []
      · subst h1
        simp [mkSummary]
      · have hlen : as.length ≠ 0 := fun h => h1 (List.length_eq_zero.mp h)
        have hne1 : ¬ (a :: as).length = 1 := by
          simpa using hlen
        simp [mkSummary, h1, hne1, Nat.pos_of_ne_zero hlen]

/-- C7. Summary statistics: in every successful analysis,
`totalUsers = users(0)`, `completedUsers = users(last)`,
`overallConversionRate = completedUsers/totalUsers*100` (0 when
`totalUsers = 0`), and `avgStepConversionRate` is the arithmetic mean of
`stepConversionRate` over steps `1..last`, defaulting to 100 for a
single-step funnel. -/
theorem analyzeFunnel_summary_stats (parse : String → Option Int)
    (store : List EventDocument) (req : FunnelAnalysisRequest)
    (r : FunnelAnalysisResult) (h : analyzeFunnel parse store req = Except.ok r) :
    r.summary.totalUsers = (r.steps.getD 0 default).users ∧
    r.summary.completedUsers = (r.steps.getD (r.steps.length - 1) default).users ∧
    r.summary.overallConversionRate =
      (if r.summary.totalUsers > 0 then
        (r.summary.completedUsers : ℚ) / (r.summary.totalUsers : ℚ) * 100 else 0) ∧
    r.summary.avgStepConversionRate =
      (if r.steps.length = 1 then (100 : ℚ)
       else ((r.steps.drop 1).map FunnelStepResult.stepConversionRate).sum /
         (((r.steps.drop 1).length : ℚ))) := by
  obtain ⟨counts, rfl, h0⟩ := analyzeFunnel_ok_inv parse store req r h
  have hl : (buildResult req.steps counts).steps ≠ [] := by
    intro hnil
    have hc := congrArg List.length hnil
    rw [buildResult_steps_length] at hc
    exact h0 (by simpa using hc)
  exact mkSummary_spec _ hl

/-- C7 witness: the summary equations applied to the concrete run. -/
theorem analyzeFunnel_summary_stats_witness :
    analyzeFunnel dateParse bugStore bugRequest = Except.ok funnelResultBug ∧
    (funnelResultBug.summary.totalUsers = (funnelResultBug.steps.getD 0 default).users ∧
     funnelResultBug.summary.completedUsers =
       (funnelResultBug.steps.getD (funnelResultBug.steps.length - 1) default).users ∧
     funnelResultBug.summary.overallConversionRate =
       (if funnelResultBug.summary.totalUsers > 0 then
         (funnelResultBug.summary.completedUsers : ℚ) /
           (funnelResultBug.summary.totalUsers : ℚ) * 100 else 0) ∧
     funnelResultBug.summary.avgStepConversionRate =
       (if funnelResultBug.steps.length = 1 then (100 : ℚ)
        else ((funnelResultBug.steps.drop 1).map FunnelStepResult.stepConversionRate).sum /
          (((funnelResultBug.steps.drop 1).length : ℚ)))) :=
  ⟨by rfl,
   analyzeFunnel_summary_stats dateParse bugStore bugRequest funnelResultBug (by rfl)⟩

/-- C8. Validation fail-fast: an empty step list is rejected with "At
least one funnel step is required", and (for non-empty steps) an
unparseable start or end date is rejected with "Invalid date format" —
in both cases uniformly for EVERY store, i.e. without any dependence on
(hence any query against) the event store. -/
theorem analyzeFunnel_fail_fast (parse : String → Option Int)
    (req : FunnelAnalysisRequest) :
    (req.steps = [] →
      ∀ store, analyzeFunnel parse store req = Except.error errNoFunnelSteps) ∧
    (req.steps ≠ [] → (parse req.startDate = none ∨ parse req.endDate = none) →
      ∀ store, analyzeFunnel parse store req = Except.error errInvalidDate) := by
  constructor
  · intro h store
    rw [analyzeFunnel, if_pos (by simp [h])]
  · intro hne hp store
    have h0 : ¬ req.steps.length = 0 := by
      simpa [List.length_eq_zero] using hne
    rcases hs : parse req.startDate with _ | sd <;>
      rcases he : parse req.endDate with _ | ed <;>
        simp [analyzeFunnel, h0, hs, he] at hp ⊢

/-- Empty-steps request fixture (test scenario C). -/
def emptyStepsRequest : FunnelAnalysisRequest :=
  { steps := [], startDate := "2025-01-01", endDate := "2025-01-31" }

/-- Bad-date request fixture (test scenario D). -/
def badDateRequest : FunnelAnalysisRequest :=
  { steps := bugSteps, startDate := "not-a-date", endDate := "2025-01-31" }

/-- C8 witness: both rejection branches applied at concrete requests. -/
theorem analyzeFunnel_fail_fast_witness :
    analyzeFunnel dateParse [] emptyStepsRequest = Except.error errNoFunnelSteps ∧
    analyzeFunnel dateParse bugStore badDateRequest = Except.error errInvalidDate :=
  ⟨(analyzeFunnel_fail_fast dateParse emptyStepsRequest).1 rfl [],
   (analyzeFunnel_fail_fast dateParse badDateRequest).2 (by decide)
     (Or.inl (by decide)) bugStore⟩

/-- C9. Determinism/idempotence: `analyzeFunnel` is a pure function of
the date parser, the (read-only) store and the request — the embedding
of the code performs no store mutation — so two invocations with
identical inputs against the same store produce equal results, step
lists and summaries included. -/
theorem analyzeFunnel_deterministic (parse : String → Option Int)
    (store : List EventDocument) (req : FunnelAnalysisRequest)
    (r1 r2 : Except String FunnelAnalysisResult)
    (h1 : analyzeFunnel parse store req = r1)
    (h2 : analyzeFunnel parse store req = r2) : r1 = r2 := by
  rw [← h1, ← h2]

/-- C9 witness: two identical concrete invocations agree. -/
theorem analyzeFunnel_deterministic_witness :
    (Except.ok funnelResultBug : Except String FunnelAnalysisResult) =
      Except.ok funnelResultBug :=
  analyzeFunnel_deterministic dateParse bugStore bugRequest _ _ (by rfl) (by rfl)
